import Mathlib

/-!
Verification development for the aurelius-dashboard repository.

The embedding covers the two core subsystems of the repository:
the local/cloud stream-record reconciliation model
(`src/pages/index.tsx` record store, `src/lib/supabase.js` dbHelpers,
`src/components/AccountManager.js` syncData) and the template-based
caption-generation engine (`src/components/CaptionGenerator.js`).

Modelling conventions:
* Timestamps are `Int` milliseconds since the epoch; the several
  `new Date()` calls inside one synchronous operation are modelled as a
  single clock value `now` passed in, and calendar-day addition
  (`Date.setDate`) is modelled as adding `86400000` ms per day.
* JS strings are Lean `String`; an absent/undefined text field is the
  empty string, so the JS truthiness test `x || fallback` becomes
  `if x = "" then fallback else x`.
* `str.replace(new RegExp("\x7b" ++ key ++ "\x7d", "g"), value)` is modelled
  by `replaceVar`: a left-to-right, non-overlapping global literal
  replacement (substitution values containing special `$` sequences are
  out of scope; no claim exercises them).
* `toLocaleDateString` is locale dependent, so it is threaded through as
  an explicit formatter parameter `fmtDate`; theorems hold for every
  formatter.
* Fallible operations return `Except String`; a thrown JS error is an
  `Except.error` carrying the message.
-/

namespace Aurelius

/-- Left brace character, written by code point to keep it out of string
literals. -/
def lbrace : Char := Char.ofNat 123

/-- Right brace character. -/
def rbrace : Char := Char.ofNat 125

/-- Decides whether `pat` occurs as a contiguous run inside `s`. -/
def occursIn (pat : List Char) : List Char → Bool
  | [] => false
  | c :: rest => pat.isPrefixOf (c :: rest) || occursIn pat rest

/-- Fuel-indexed worker for global literal replacement: scans `s` left to
right and replaces each non-overlapping occurrence of `pat` by `rep`.
The fuel is only a structural-recursion device; `s.length` fuel always
suffices because every step consumes at least one character of `s`. -/
def replaceListAux (pat rep : List Char) : Nat → List Char → List Char
  | 0, s => s
  | _ + 1, [] => []
  | fuel + 1, c :: rest =>
    if pat.isPrefixOf (c :: rest) then
      rep ++ replaceListAux pat rep fuel ((c :: rest).drop pat.length)
    else
      c :: replaceListAux pat rep fuel rest

/-- Global literal replacement of `pat` by `rep` in `s`, the model of the
JS `String.replace` with a global regex made of a literal pattern. -/
def replaceList (pat rep s : List Char) : List Char :=
  replaceListAux pat rep s.length s

/-- Character list of the placeholder `\x7bkey\x7d` searched for by the
caption generator. -/
def varPattern (key : String) : List Char :=
  lbrace :: (key.toList ++ [rbrace])

/-- String whose text is exactly the placeholder for `key`. -/
def placeholder (key : String) : String :=
  ⟨varPattern key⟩

/-- Model of one `caption.replace(new RegExp(..., "g"), value)` step. -/
def replaceVar (caption : String) (key value : String) : String :=
  ⟨replaceList (varPattern key) value.toList caption.toList⟩

/-- Model of `Object.entries(variables).forEach(([key, value]) => ...)`
performing the sequential substitution of every variable, in insertion
order of the JS object literal. -/
def applyVars (vars : List (String × String)) (template : String) : String :=
  vars.foldl (fun acc kv => replaceVar acc kv.1 kv.2) template

/-- Characters matched by the `\s` class in the regexes of the caption
generator (the exotic unicode whitespace of full `\s` is not exercised
by any claim). -/
def isJsWs (c : Char) : Bool :=
  c = ' ' || c = '\t' || c = '\n' || c = '\r'

/-- Fuel-indexed worker for `.replace(/\s+/g, sep)`: every maximal run of
whitespace becomes one copy of `sep`. -/
def collapseWsAux (sep : Char) : Nat → List Char → List Char
  | 0, s => s
  | _ + 1, [] => []
  | fuel + 1, c :: rest =>
    if isJsWs c then sep :: collapseWsAux sep fuel (rest.dropWhile isJsWs)
    else c :: collapseWsAux sep fuel rest

/-- Model of `str.replace(/\s+/g, "_")`. -/
def collapseWs (s : String) : String :=
  ⟨collapseWsAux '_' s.toList.length s.toList⟩

/-- Status enumeration of a stream record (`index.tsx` `Stream.status`). -/
inductive StreamStatus
  | active
  | completed
  | overdue
deriving DecidableEq, Repr

/-- Line item of a stream (`index.tsx` `StreamItem` plus the extra text
fields the caption generator reads off the same objects). Optional text
fields are empty strings when absent. -/
structure StreamItem where
  id : Int
  item_name : String
  creator_name : String
  creator_id : String
  product_url : String
  product_id : String
  creator_imvu_avatar : String
  creator_ig_handle : String
  creator_ig_shop_handle : String
  notes : String
deriving DecidableEq, Repr

/-- Stream record (`index.tsx` `Stream`), with `user_id` the owner tag that
only exists once a record has been pushed to the remote mirror. -/
structure Stream where
  id : Int
  agency_name : String
  due_date : Int
  status : StreamStatus
  priority : String
  stream_type : String
  notes : String
  created_at : Int
  completed_at : Option Int
  model_ig_handle : String
  user_id : Option String
  items : List StreamItem
deriving DecidableEq, Repr

/-- Payload submitted by the stream form to `createStream`. -/
structure StreamDraft where
  agency_name : String
  due_days : Int
  priority : String
  stream_type : String
  notes : String
  items : List StreamItem
deriving DecidableEq, Repr

/-- Shallow-merge patch applied by `updateStream` via the JS spread
`\x7b ...stream, ...streamData \x7d`; `none` fields are absent keys. -/
structure StreamPatch where
  agency_name : Option String := none
  due_date : Option Int := none
  status : Option StreamStatus := none
  priority : Option String := none
  stream_type : Option String := none
  notes : Option String := none
  completed_at : Option (Option Int) := none
  model_ig_handle : Option String := none
  items : Option (List StreamItem) := none
deriving DecidableEq, Repr

/-- Shallow merge of a patch into a record. -/
def applyPatch (s : Stream) (p : StreamPatch) : Stream :=
  { s with
    agency_name := p.agency_name.getD s.agency_name
    due_date := p.due_date.getD s.due_date
    status := p.status.getD s.status
    priority := p.priority.getD s.priority
    stream_type := p.stream_type.getD s.stream_type
    notes := p.notes.getD s.notes
    completed_at := p.completed_at.getD s.completed_at
    model_ig_handle := p.model_ig_handle.getD s.model_ig_handle
    items := p.items.getD s.items }

/-- Organization profile owning caption templates (`agencies` entries of
`CaptionGenerator.js`): a mapping from platform key to template string. -/
structure Agency where
  id : Int
  name : String
  templates : List (String × String)
deriving DecidableEq, Repr

/-- Milliseconds per day. -/
def msPerDay : Int := 86400000

/-- Model of `createStream` in `src/pages/index.tsx` (lines 197-232), local
part: builds the new record from the draft and the clock and appends it to
the working set. The remote push that may follow is modelled separately by
`dbCreateStream`. Returns the updated list and the created record. -/
def createStream (now : Int) (streams : List Stream) (draft : StreamDraft) :
    List Stream × Stream :=
  let newStream : Stream := {
    id := now
    agency_name := draft.agency_name
    due_date := now + draft.due_days * msPerDay
    priority := draft.priority
    stream_type := draft.stream_type
    notes := draft.notes
    status := .active
    created_at := now
    completed_at := none
    model_ig_handle := ""
    user_id := none
    items := draft.items }
  (streams ++ [newStream], newStream)

/-- Model of `completeStream` in `src/pages/index.tsx` (lines 187-195):
maps over the working set, stamping status and completion time on the
record with the given id, leaving every other record untouched. -/
def completeStream (now : Int) (streams : List Stream) (streamId : Int) :
    List Stream :=
  streams.map fun s =>
    if s.id = streamId then
      { s with status := .completed, completed_at := some now }
    else s

/-- Model of `updateStream` in `src/pages/index.tsx` (lines 234-254):
shallow-merges the submitted patch into the record whose id matches
`editingStream?.id` (`none` when no record is being edited). -/
def updateStream (streams : List Stream) (editingId : Option Int)
    (patch : StreamPatch) : List Stream :=
  streams.map fun s =>
    if some s.id = editingId then applyPatch s patch else s

/-- Model of `deleteStream` in `src/pages/index.tsx` (lines 256-271):
filters the record with the given id out of the working set. -/
def deleteStream (streams : List Stream) (streamId : Int) : List Stream :=
  streams.filter fun s => s.id != streamId

/-- Per-item variable set of `generateCaptionForItem` (lines 421-432), in
the insertion order of the JS object literal, with the literal fallbacks
of the source. -/
def itemVars (fmtDate : Int → String) (data : Stream) (item : StreamItem) :
    List (String × String) := [
  ("item_name", if item.item_name = "" then "Item" else item.item_name),
  ("creator_name", if item.creator_name = "" then "Creator" else item.creator_name),
  ("creator_imvu_avatar",
    if item.creator_imvu_avatar = "" then "Creator" else item.creator_imvu_avatar),
  ("creator_ig_handle", item.creator_ig_handle),
  ("creator_ig_shop_handle", item.creator_ig_shop_handle),
  ("product_id", item.product_id),
  ("agency_name", if data.agency_name = "" then "Agency" else data.agency_name),
  ("stream_type", if data.stream_type = "" then "showcase" else data.stream_type),
  ("due_date", if data.due_date = 0 then "" else fmtDate data.due_date)]

/-- Result of one call to `generateCaptions`: either the single combined
caption stored under the `all_items` key, or a mapping from item id to the
caption rendered for that item. -/
inductive CaptionsOutput
  | single (caption : String)
  | perItem (captions : List (Int × String))
deriving DecidableEq, Repr

/-- Model of the built-in default templates of `getDefaultTemplate` in
`src/components/CaptionGenerator.js` (lines 500-508); an unrecognized
platform key falls through `templates[platform] || ""` to the empty
string. -/
def getDefaultTemplate (platform : String) : String :=
  if platform = "imvu_feed" then
    "⚜️{agency_name}⚜️ present Shop Stream @{creator_imvu_avatar}\n\n❤️ Product name(s): {item_names}\n❤️ Product ID(s): {product_ids}\n❤️ Shop ID: {creator_shop_id}"
  else if platform = "ig_feed" then
    "{agency_name} present Shop Stream Creator {creator_imvu_avatar} | @{creator_ig_handle}\n\n#shop{creator_imvu_avatar}\n\n❤️ Product name: {item_name}\n❤️ Product ID: {product_id}\n❤️ Shop ID: {creator_shop_id}\n❤️ @{agency_ig_handle}\n❤️ Model: @{model_ig_handle}\n\n#imvu #creator #{agency_hashtag} #imvumodelagency #imvustreamer #imvustreaming #imvumodel #imvumodels #imvucollaboration #imvufashion #imvulifestyle #imvupictureperfect #imvuphoto #imvuinstagram #imvushop #imvuoutfits #imvustyle #imvustudiobeta #imvubeauty #imvudiscover #imvudiscoverfeed #imvuavi #welovecreativity"
  else if platform = "request" then
    "Hi @{creator_imvu_avatar}! I\x27d love to showcase {item_name} in my next stream. Product ID: {product_id}"
  else if platform = "end_stream" then
    "Thank you for watching! Don\x27t forget to check out {item_name} by @{creator_imvu_avatar} - {product_id}"
  else ""

/-- Model of `agency?.templates?.[selectedPlatform] || ""`: the template
the selected organization holds for the platform, or empty. -/
def agencyTemplate (ag : Option Agency) (platform : String) : String :=
  match ag with
  | none => ""
  | some a =>
    match a.templates.lookup platform with
    | none => ""
    | some t => t

/-- Template resolution shared by both generator paths: a non-empty
organization template wins, otherwise the built-in default. -/
def resolveTemplate (ag : Option Agency) (platform : String) : String :=
  let t := agencyTemplate ag platform
  if t = "" then getDefaultTemplate platform else t

/-- Model of `generateCaptionForItem` in `src/components/CaptionGenerator.js`
(lines 408-440): resolves the template and substitutes the per-item
variable set sequentially, in the insertion order of the JS object
literal, with the literal fallbacks of the source. -/
def generateCaptionForItem (fmtDate : Int → String) (platform : String)
    (ag : Option Agency) (data : Stream) (item : StreamItem) : String :=
  applyVars (itemVars fmtDate data item) (resolveTemplate ag platform)

/-- Variable set assembled by `generateSingleCaptionForAllItems` in
`src/components/CaptionGenerator.js` (lines 442-498) for the two feed
platforms: the record-level variables plus, for `imvu_feed` only, the
aggregate `item_names` and `product_ids` joins; for `ig_feed` the first
item is used in single-item format instead. -/
def feedVariables (fmtDate : Int → String) (platform : String)
    (data : Stream) : List (String × String) :=
  let firstItem := data.items.head?
  let basicVariables : List (String × String) := [
    ("agency_name", if data.agency_name = "" then "Agency" else data.agency_name),
    ("stream_type", if data.stream_type = "" then "showcase" else data.stream_type),
    ("due_date", if data.due_date = 0 then "" else fmtDate data.due_date),
    ("creator_imvu_avatar",
      match firstItem with
      | some it => if it.creator_imvu_avatar = "" then "Creator" else it.creator_imvu_avatar
      | none => "Creator"),
    ("creator_ig_handle", (firstItem.map StreamItem.creator_ig_handle).getD ""),
    ("creator_shop_id", (firstItem.map StreamItem.creator_id).getD ""),
    ("agency_ig_handle",
      if data.agency_name = "" then "@agency"
      else "@" ++ collapseWs data.agency_name.toLower ++ "_agency"),
    ("agency_hashtag",
      if data.agency_name = "" then "AGENCY"
      else collapseWs data.agency_name.toUpper ++ "_MODELING_AGENCY"),
    ("model_ig_handle",
      if data.model_ig_handle = "" then "@model_handle" else data.model_ig_handle)]
  basicVariables ++
    (if platform = "imvu_feed" then [
      ("item_names", String.intercalate ", " (data.items.map StreamItem.item_name)),
      ("product_ids", String.intercalate ", " (data.items.map StreamItem.product_id))]
    else [
      ("item_name",
        match firstItem with
        | some it => if it.item_name = "" then "Item" else it.item_name
        | none => "Item"),
      ("product_id", (firstItem.map StreamItem.product_id).getD "")])

/-- Model of `generateSingleCaptionForAllItems` (lines 442-498): for the
two feed platforms, substitutes the feed variable set into the resolved
template; for any other platform the resolved template is returned as
is. -/
def generateSingleCaptionForAllItems (fmtDate : Int → String)
    (platform : String) (ag : Option Agency) (data : Stream) : String :=
  let template := resolveTemplate ag platform
  if platform = "imvu_feed" ∨ platform = "ig_feed" then
    applyVars (feedVariables fmtDate platform data) template
  else template

/-- Model of `captions[item.id] = caption` on a JS object: replaces the
value of an existing key, appends a fresh key. (The JS engine orders
integer-like keys numerically; only the entry set and count matter to the
claims, so insertion order is kept.) -/
def objInsert (m : List (Int × String)) (k : Int) (v : String) :
    List (Int × String) :=
  if m.any (fun p => p.1 == k) then
    m.map fun p => if p.1 == k then (k, v) else p
  else m ++ [(k, v)]

/-- Model of `generateCaptions` in `src/components/CaptionGenerator.js`
(lines 380-406): one combined caption for the two feed platforms, one
caption per item keyed by item id for every other platform. -/
def generateCaptions (fmtDate : Int → String) (platform : String)
    (ag : Option Agency) (data : Stream) : CaptionsOutput :=
  if platform = "imvu_feed" ∨ platform = "ig_feed" then
    .single (generateSingleCaptionForAllItems fmtDate platform ag data)
  else
    .perItem (data.items.foldl
      (fun m it => objInsert m it.id (generateCaptionForItem fmtDate platform ag data it))
      [])

/-- Remote table rows visible to one user: model of the supabase query of
`dbHelpers.getStreams` (`src/lib/supabase.js` lines 70-84), which selects
the rows with the given `user_id`. The newest-created-first ordering of
the source query and its error path (which also yields `[]`) are not
distinguished by any claim. An unconfigured client returns `[]`. -/
def getStreamsList (configured : Bool) (remote : List Stream)
    (userId : String) : List Stream :=
  if configured then remote.filter (fun s => s.user_id == some userId) else []

/-- Model of `dbHelpers.getStreams`: never throws; an unconfigured client
or a transport error both produce an empty list. -/
def dbGetStreams (configured : Bool) (remote : List Stream)
    (userId : String) : Except String (List Stream) :=
  .ok (getStreamsList configured remote userId)

/-- Model of `dbHelpers.createStream` (lines 86-96): throws when the
client is unconfigured, otherwise inserts the row. -/
def dbCreateStream (configured : Bool) (remote : List Stream) (s : Stream) :
    Except String (List Stream) :=
  if configured then .ok (remote ++ [s])
  else .error "Supabase not configured"

/-- Model of `dbHelpers.updateStream` (lines 98-109). -/
def dbUpdateStream (configured : Bool) (remote : List Stream) (id : Int)
    (patch : StreamPatch) : Except String (List Stream) :=
  if configured then
    .ok (remote.map fun s => if s.id = id then applyPatch s patch else s)
  else .error "Supabase not configured"

/-- Model of `dbHelpers.deleteStream` (lines 111-121). -/
def dbDeleteStream (configured : Bool) (remote : List Stream) (id : Int) :
    Except String (List Stream) :=
  if configured then .ok (remote.filter fun s => s.id != id)
  else .error "Supabase not configured"

/-- Tagging of a local record with the owner id before upload:
`\x7b ...stream, user_id: userId \x7d`. -/
def tagOwner (userId : String) (s : Stream) : Stream :=
  { s with user_id := some userId }

/-- Outcome of the reconciliation push phase: the remote table after the
uploads, the arguments of every `createStream` call issued (in order),
and whether the loop ran to completion. -/
structure SyncOutcome where
  remote : List Stream
  createCalls : List Stream
  pushOk : Bool
deriving DecidableEq, Repr

/-- Push loop of `dbHelpers.syncLocalData` (`src/lib/supabase.js` lines
132-140): walks the local records in order, skipping those whose id is
already remote, uploading the rest tagged with the owner id. `createOk`
says whether the remote accepts a given upload; a rejected upload throws,
which aborts the loop (the surrounding try/catch swallows the error), so
later records are not attempted. -/
def pushLoop (createOk : Stream → Bool) (userId : String)
    (dbStreamIds : List Int) :
    List Stream → List Stream → List Stream → SyncOutcome
  | [], remote, calls => ⟨remote, calls, true⟩
  | s :: rest, remote, calls =>
    if dbStreamIds.contains s.id then
      pushLoop createOk userId dbStreamIds rest remote calls
    else
      let tagged := tagOwner userId s
      if createOk tagged then
        pushLoop createOk userId dbStreamIds rest (remote ++ [tagged]) (calls ++ [tagged])
      else ⟨remote, calls ++ [tagged], false⟩

/-- Model of `dbHelpers.syncLocalData` (lines 124-147): fetches the remote
set once, computes its id set, then runs the push loop. Unconfigured
clients return immediately. The body never throws to its caller: every
error is caught and logged inside. -/
def syncLocalData (createOk : Stream → Bool) (configured : Bool)
    (userId : String) (localStreams remote : List Stream) : SyncOutcome :=
  if configured then
    let dbStreamIds := (getStreamsList true remote userId).map Stream.id
    pushLoop createOk userId dbStreamIds localStreams remote []
  else ⟨remote, [], true⟩

/-- Outcome of one `syncData` run: the remote table, the local working
set afterwards, and the `createStream` calls issued. -/
structure SyncDataOutcome where
  remote : List Stream
  localStreams : List Stream
  createCalls : List Stream
deriving DecidableEq, Repr

/-- Model of `syncData` in `src/components/AccountManager.js` (lines
80-105), the reconciliation coordinator: requires a signed-in user and a
configured client (otherwise nothing happens); pushes the non-empty local
set via `syncLocalData`; re-fetches the remote set; and, when the
re-fetched set is non-empty, replaces the local working set with it
wholesale. -/
def syncData (createOk : Stream → Bool) (configured : Bool)
    (user : Option String) (localStreams remote : List Stream) :
    SyncDataOutcome :=
  match user with
  | none => ⟨remote, localStreams, []⟩
  | some uid =>
    if configured then
      let push :=
        if localStreams.length > 0 then
          syncLocalData createOk true uid localStreams remote
        else ⟨remote, [], true⟩
      let dbStreams := getStreamsList true push.remote uid
      let newLocal := if dbStreams.length > 0 then dbStreams else localStreams
      ⟨push.remote, newLocal, push.createCalls⟩
    else ⟨remote, localStreams, []⟩

/-! Auxiliary lemmas about the substitution engine and the list
operations of the embedding. -/

theorem replaceListAux_nil (pat rep : List Char) :
    ∀ fuel : Nat, replaceListAux pat rep fuel [] = []
  | 0 => rfl
  | _ + 1 => rfl

theorem isPrefixOf_self : ∀ l : List Char, l.isPrefixOf l = true
  | [] => rfl
  | a :: as => by simp [List.isPrefixOf, isPrefixOf_self as]

theorem mem_of_isPrefixOf {a : Char} :
    ∀ {l₁ l₂ : List Char}, l₁.isPrefixOf l₂ = true → a ∈ l₁ → a ∈ l₂
  | [], _, _, ha => absurd ha (List.not_mem_nil a)
  | _ :: _, [], h, _ => by simp [List.isPrefixOf] at h
  | b :: bs, c :: cs, h, ha => by
    simp only [List.isPrefixOf, Bool.and_eq_true] at h
    cases ha with
    | head => exact eq_of_beq h.1 ▸ List.mem_cons_self c cs
    | tail _ ha2 => exact List.mem_cons_of_mem c (mem_of_isPrefixOf h.2 ha2)

theorem occursIn_eq_false_of_not_mem {ch : Char} {pat : List Char} :
    ∀ {s : List Char}, ch ∈ pat → ch ∉ s → occursIn pat s = false
  | [], _, _ => rfl
  | c :: rest, hch, hs => by
    simp only [occursIn, Bool.or_eq_false_iff]
    refine ⟨?_, occursIn_eq_false_of_not_mem hch (fun hmem => hs (List.mem_cons_of_mem c hmem))⟩
    cases hp : pat.isPrefixOf (c :: rest) with
    | false => rfl
    | true => exact absurd (mem_of_isPrefixOf hp hch) hs

theorem replaceListAux_of_occurs {pat rep : List Char} :
    ∀ (fuel : Nat) (s : List Char), occursIn pat s = false →
      replaceListAux pat rep fuel s = s
  | 0, _, _ => rfl
  | _ + 1, [], _ => rfl
  | fuel + 1, c :: rest, h => by
    simp only [occursIn, Bool.or_eq_false_iff] at h
    simp only [replaceListAux]
    rw [if_neg (by simp [h.1]), replaceListAux_of_occurs fuel rest h.2]

theorem replaceList_of_occurs {pat rep s : List Char}
    (h : occursIn pat s = false) : replaceList pat rep s = s :=
  replaceListAux_of_occurs s.length s h

theorem replaceVar_eq_self_of_occurs {caption key value : String}
    (h : occursIn (varPattern key) caption.toList = false) :
    replaceVar caption key value = caption := by
  show String.mk (replaceList (varPattern key) value.toList caption.toList) = caption
  rw [replaceList_of_occurs h]
  rfl

theorem lbrace_mem_varPattern (key : String) : lbrace ∈ varPattern key :=
  List.mem_cons_self _ _

theorem occursIn_varPattern_eq_false {s : List Char} (key : String)
    (hs : lbrace ∉ s) : occursIn (varPattern key) s = false :=
  occursIn_eq_false_of_not_mem (lbrace_mem_varPattern key) hs

theorem applyVars_of_keys {t : String} :
    ∀ vars : List (String × String),
      (∀ key ∈ vars.map Prod.fst, occursIn (varPattern key) t.toList = false) →
      applyVars vars t = t
  | [], _ => rfl
  | kv :: rest, h => by
    show applyVars rest (replaceVar t kv.1 kv.2) = t
    rw [replaceVar_eq_self_of_occurs (h kv.1 (by simp))]
    exact applyVars_of_keys rest (fun key hk => h key (by simp [hk]))

theorem applyVars_braceFree {v : String} (vars : List (String × String))
    (hv : lbrace ∉ v.toList) : applyVars vars v = v :=
  applyVars_of_keys vars (fun key _ => occursIn_varPattern_eq_false key hv)

theorem replaceList_self {pat : List Char} (rep : List Char) (h : pat ≠ []) :
    replaceList pat rep pat = rep := by
  cases pat with
  | nil => exact absurd rfl h
  | cons c cs =>
    show replaceListAux (c :: cs) rep (c :: cs).length (c :: cs) = rep
    rw [List.length_cons]
    simp only [replaceListAux]
    rw [if_pos (isPrefixOf_self (c :: cs)), List.drop_length, replaceListAux_nil,
      List.append_nil]

theorem replaceVar_placeholder (key value : String) :
    replaceVar (placeholder key) key value = value := by
  show String.mk (replaceList (varPattern key) value.toList (varPattern key)) = value
  rw [replaceList_self _ (by simp [varPattern])]
  rfl

theorem applyVars_resolve :
    ∀ (pre post : List (String × String)) (k v : String),
      (∀ key ∈ pre.map Prod.fst,
        occursIn (varPattern key) (placeholder k).toList = false) →
      lbrace ∉ v.toList →
      applyVars (pre ++ (k, v) :: post) (placeholder k) = v
  | [], post, k, v, _, hv => by
    show applyVars post (replaceVar (placeholder k) k v) = v
    rw [replaceVar_placeholder]
    exact applyVars_braceFree post hv
  | kv :: rest, post, k, v, hpre, hv => by
    show applyVars (rest ++ (k, v) :: post) (replaceVar (placeholder k) kv.1 kv.2) = v
    rw [replaceVar_eq_self_of_occurs (hpre kv.1 (by simp))]
    exact applyVars_resolve rest post k v (fun key hk => hpre key (by simp [hk])) hv

theorem applyVars_resolve_last :
    ∀ (pre : List (String × String)) (k v : String),
      (∀ key ∈ pre.map Prod.fst,
        occursIn (varPattern key) (placeholder k).toList = false) →
      applyVars (pre ++ [(k, v)]) (placeholder k) = v
  | [], k, v, _ => replaceVar_placeholder k v
  | kv :: rest, k, v, hpre => by
    show applyVars (rest ++ [(k, v)]) (replaceVar (placeholder k) kv.1 kv.2) = v
    rw [replaceVar_eq_self_of_occurs (hpre kv.1 (by simp))]
    exact applyVars_resolve_last rest k v (fun key hk => hpre key (by simp [hk]))

theorem brace_not_mem_fallback (s fb : String) (hs : lbrace ∉ s.toList)
    (hfb : lbrace ∉ fb.toList) : lbrace ∉ (if s = "" then fb else s).toList := by
  split
  · exact hfb
  · exact hs

theorem map_eq_self_of {α : Type} (f : α → α) :
    ∀ l : List α, (∀ a ∈ l, f a = a) → l.map f = l
  | [], _ => rfl
  | a :: rest, h => by
    simp only [List.map]
    rw [h a (List.mem_cons_self a rest),
      map_eq_self_of f rest (fun b hb => h b (List.mem_cons_of_mem a hb))]

theorem foldl_objInsert_eq_map (g : StreamItem → String) :
    ∀ (items : List StreamItem) (m : List (Int × String)),
      (∀ it ∈ items, ∀ p ∈ m, p.1 ≠ it.id) →
      (items.map StreamItem.id).Nodup →
      items.foldl (fun acc it => objInsert acc it.id (g it)) m =
        m ++ items.map (fun it => (it.id, g it))
  | [], m, _, _ => by simp
  | it :: rest, m, hdisj, hnodup => by
    have hany : m.any (fun p => p.1 == it.id) = false := by
      cases hb : m.any (fun p => p.1 == it.id) with
      | false => rfl
      | true =>
        obtain ⟨p, hp, hpe⟩ := List.any_eq_true.mp hb
        exact absurd (eq_of_beq hpe) (hdisj it (List.mem_cons_self it rest) p hp)
    have hins : objInsert m it.id (g it) = m ++ [(it.id, g it)] := by
      unfold objInsert
      rw [hany]
      simp
    have hnodup2 : (it.id :: rest.map StreamItem.id).Nodup := by simpa using hnodup
    have hdisj2 : ∀ it2 ∈ rest, ∀ p ∈ m ++ [(it.id, g it)], p.1 ≠ it2.id := by
      intro it2 hit2 p hp
      rcases List.mem_append.mp hp with hpm | hps
      · exact hdisj it2 (List.mem_cons_of_mem it hit2) p hpm
      · have hpe : p = (it.id, g it) := by simpa using hps
        rw [hpe]
        intro he
        have he2 : it.id = it2.id := he
        exact (List.nodup_cons.mp hnodup2).1 (he2 ▸ List.mem_map_of_mem StreamItem.id hit2)
    show List.foldl _ (objInsert m it.id (g it)) rest = _
    rw [hins,
      foldl_objInsert_eq_map g rest (m ++ [(it.id, g it)]) hdisj2
        (List.nodup_cons.mp hnodup2).2]
    simp

theorem pushLoop_all_ok (createOk : Stream → Bool) (uid : String)
    (dbIds : List Int) (hok : ∀ s, createOk s = true) :
    ∀ L remote calls : List Stream,
      pushLoop createOk uid dbIds L remote calls =
        ⟨remote ++ (L.filter (fun s => !(dbIds.contains s.id))).map (tagOwner uid),
         calls ++ (L.filter (fun s => !(dbIds.contains s.id))).map (tagOwner uid),
         true⟩
  | [], remote, calls => by simp [pushLoop]
  | s :: rest, remote, calls => by
    cases hc : dbIds.contains s.id with
    | true =>
      have hm : s.id ∈ dbIds := by simpa using hc
      simp only [pushLoop, hc, if_true]
      exact (pushLoop_all_ok createOk uid dbIds hok rest remote calls).trans
        (by simp [List.filter_cons, hm])
    | false =>
      have hm : s.id ∉ dbIds := by simpa using hc
      simp only [pushLoop, hc, Bool.false_eq_true, if_false, hok (tagOwner uid s), if_true]
      exact (pushLoop_all_ok createOk uid dbIds hok rest (remote ++ [tagOwner uid s])
        (calls ++ [tagOwner uid s])).trans
        (by simp [List.filter_cons, hm, List.append_assoc])

theorem pushLoop_abort (createOk : Stream → Bool) (uid : String)
    (dbIds : List Int) (f : Stream)
    (hf1 : dbIds.contains f.id = false) (hf2 : createOk (tagOwner uid f) = false) :
    ∀ (pre post remote calls : List Stream),
      (∀ r ∈ pre, dbIds.contains r.id = false ∧ createOk (tagOwner uid r) = true) →
      pushLoop createOk uid dbIds (pre ++ f :: post) remote calls =
        ⟨remote ++ pre.map (tagOwner uid),
         calls ++ (pre.map (tagOwner uid) ++ [tagOwner uid f]),
         false⟩
  | [], post, remote, calls, _ => by
    simp only [List.nil_append, pushLoop, hf1, Bool.false_eq_true, if_false, hf2]
    simp
  | r :: rest, post, remote, calls, hpre => by
    have hr := hpre r (List.mem_cons_self r rest)
    simp only [List.cons_append, pushLoop, hr.1, Bool.false_eq_true, if_false, hr.2, if_true]
    exact (pushLoop_abort createOk uid dbIds f hf1 hf2 rest post (remote ++ [tagOwner uid r])
      (calls ++ [tagOwner uid r])
      (fun r2 hr2 => hpre r2 (List.mem_cons_of_mem r hr2))).trans
      (by simp [List.append_assoc])

/-! Concrete fixtures for the closed witness and counterexample
theorems. -/

/-- Trivial date formatter used in closed statements. -/
def fmt0 : Int → String := fun _ => ""

def item0 : StreamItem := ⟨1, "Gown", "Lira", "", "", "", "", "", "", ""⟩

def itemA : StreamItem := ⟨1, "A", "Ca", "", "", "pA", "", "", "", ""⟩

def itemB : StreamItem := ⟨2, "B", "Cb", "", "", "pB", "", "", "", ""⟩

def data0 : Stream :=
  ⟨10, "", 0, .active, "medium", "", "", 5, none, "", none, [item0]⟩

def dataAB : Stream := { data0 with items := [itemA, itemB] }

def agRequest : Agency := ⟨1, "t", [("request", "{item_name} by {creator_name}")]⟩

def agStreamType : Agency := ⟨2, "t", [("request", "{stream_type}")]⟩

def agItemName : Agency := ⟨3, "t", [("ig_feed", "{item_name}")]⟩

def agItemNames : Agency := ⟨4, "t", [("ig_feed", "{item_names}")]⟩

def agJoin : Agency := ⟨5, "t", [("imvu_feed", "{item_names}")]⟩

def agJoinWrap : Agency := ⟨6, "t", [("imvu_feed", "✨ {item_names} ✨")]⟩

def agItemOnly : Agency := ⟨7, "t", [("request", "{item_name}")]⟩

def mkRec (i : Int) (uid : Option String) : Stream :=
  ⟨i, "", 0, .active, "medium", "", "", i, none, "", uid, []⟩

def aRec : Stream := mkRec 1 none

def bRec : Stream := mkRec 2 none

def bRem : Stream := mkRec 2 (some "u")

def cRem : Stream := mkRec 3 (some "u")

def okAll : Stream → Bool := fun _ => true

def failOn1 : Stream → Bool := fun s => s.id != 1

def draft3 : StreamDraft := ⟨"", 3, "low", "showcase", "", []⟩

def itemBlank : StreamItem := { item0 with item_name := "", creator_name := "" }

theorem map_congr_fn {α β : Type} (f g : α → β) :
    ∀ l : List α, (∀ a ∈ l, f a = g a) → l.map f = l.map g
  | [], _ => rfl
  | a :: rest, h => by
    simp only [List.map]
    rw [h a (List.mem_cons_self a rest),
      map_congr_fn f g rest (fun b hb => h b (List.mem_cons_of_mem a hb))]

/-- Skipping the push of an empty local set coincides with running the
push loop on no records, so the guard of `syncData` is redundant. -/
theorem push_if_eq (createOk : Stream → Bool) (uid : String)
    (L R : List Stream) :
    (if L.length > 0 then syncLocalData createOk true uid L R
      else ⟨R, [], true⟩) = syncLocalData createOk true uid L R := by
  cases L with
  | nil => rfl
  | cons s rest =>
    rw [if_pos (show (s :: rest : List Stream).length > 0 from Nat.succ_pos rest.length)]

/-- Unfolding of `syncData` for a signed-in user and configured client:
the local set is pushed through `syncLocalData`, the remote set is
re-fetched, and a non-empty re-fetch replaces the local set. -/
theorem syncData_unfold (createOk : Stream → Bool) (uid : String)
    (L R : List Stream) :
    syncData createOk true (some uid) L R =
      ⟨(syncLocalData createOk true uid L R).remote,
       (if (getStreamsList true (syncLocalData createOk true uid L R).remote uid).length > 0
         then getStreamsList true (syncLocalData createOk true uid L R).remote uid
         else L),
       (syncLocalData createOk true uid L R).createCalls⟩ := by
  show (let push := if L.length > 0 then syncLocalData createOk true uid L R
          else ⟨R, [], true⟩
        let dbStreams := getStreamsList true push.remote uid
        let newLocal := if dbStreams.length > 0 then dbStreams else L
        (⟨push.remote, newLocal, push.createCalls⟩ : SyncDataOutcome)) = _
  rw [push_if_eq]

/-- C1: on sign-in reconciliation with every upload accepted, the remote
mirror receives a create call exactly for the local records whose id is
not in the owner's remote set, each tagged with the owner id, and when
the re-fetched remote set is non-empty it replaces the local working set
wholesale. -/
theorem c1_reconcile_on_sign_in (createOk : Stream → Bool) (uid : String)
    (L R : List Stream) (hok : ∀ s, createOk s = true) :
    (syncData createOk true (some uid) L R).createCalls =
      (L.filter (fun s =>
        !(((getStreamsList true R uid).map Stream.id).contains s.id))).map (tagOwner uid)
    ∧ (getStreamsList true (syncData createOk true (some uid) L R).remote uid ≠ [] →
        (syncData createOk true (some uid) L R).localStreams =
          getStreamsList true (syncData createOk true (some uid) L R).remote uid) := by
  have hsync : syncLocalData createOk true uid L R =
      pushLoop createOk uid ((getStreamsList true R uid).map Stream.id) L R [] := rfl
  have hpush := pushLoop_all_ok createOk uid
    ((getStreamsList true R uid).map Stream.id) hok L R []
  have hu := syncData_unfold createOk uid L R
  constructor
  · rw [hu]
    show (syncLocalData createOk true uid L R).createCalls = _
    rw [hsync, hpush]
    simp
  · intro hne
    rw [hu] at hne ⊢
    show (if (getStreamsList true (syncLocalData createOk true uid L R).remote uid).length > 0
        then getStreamsList true (syncLocalData createOk true uid L R).remote uid else L) =
      getStreamsList true (syncLocalData createOk true uid L R).remote uid
    rw [if_pos (List.length_pos.mpr hne)]

/-- C1 witness: with local set `[a, b]` and remote set `[b, c]` of owner
`u` (`b` sharing id 2), reconciliation issues exactly one create call,
for `a` tagged with the owner, and the final local set is the re-fetched
remote set. -/
theorem c1_witness :
    (syncData okAll true (some "u") [aRec, bRec] [bRem, cRem]).createCalls =
      [tagOwner "u" aRec]
    ∧ (syncData okAll true (some "u") [aRec, bRec] [bRem, cRem]).localStreams =
      [bRem, cRem, tagOwner "u" aRec] := by
  have h := c1_reconcile_on_sign_in okAll "u" [aRec, bRec] [bRem, cRem] (fun s => rfl)
  exact ⟨h.1.trans (by decide), (h.2 (by decide)).trans (by decide)⟩

/-- C2 counterexample: a record with two items named A and B rendered for
`ig_feed` against a template made of the single-item placeholder yields
the single string "A": only the first item is used, so the combined
string does not cover all of the record's items. -/
theorem c2_counterexample :
    generateCaptions fmt0 "ig_feed" (some agItemName) dataAB =
      CaptionsOutput.single "A" := by decide

/-- C2 amended: for the two feed platform keys the generator produces
exactly one combined string (built from the aggregate variables for
`imvu_feed` but from the first item's fields for `ig_feed`), while for
`request` and `end_stream` it produces exactly one rendered string per
item, keyed by that item's id and obtained by rendering that item. -/
theorem c2_amended (fmtDate : Int → String) (ag : Option Agency) (data : Stream)
    (hids : (data.items.map StreamItem.id).Nodup) :
    (∀ p : String, p = "imvu_feed" ∨ p = "ig_feed" →
      ∃ c, generateCaptions fmtDate p ag data = .single c)
    ∧ (∀ p : String, p = "request" ∨ p = "end_stream" →
      generateCaptions fmtDate p ag data =
        .perItem (data.items.map fun it =>
          (it.id, generateCaptionForItem fmtDate p ag data it)))
    ∧ (∀ firstItem : StreamItem, data.items.head? = some firstItem →
      resolveTemplate ag "ig_feed" = placeholder "item_name" →
      lbrace ∉ firstItem.item_name.toList →
      generateCaptions fmtDate "ig_feed" ag data =
        .single (if firstItem.item_name = "" then "Item" else firstItem.item_name)) := by
  refine ⟨?_, ?_, ?_⟩
  · intro p hp
    unfold generateCaptions
    rw [if_pos hp]
    exact ⟨_, rfl⟩
  · intro p hp
    have hnot : ¬ (p = "imvu_feed" ∨ p = "ig_feed") := by
      rcases hp with rfl | rfl
      · decide
      · decide
    unfold generateCaptions
    rw [if_neg hnot]
    refine congrArg CaptionsOutput.perItem ?_
    exact (foldl_objInsert_eq_map (fun it => generateCaptionForItem fmtDate p ag data it)
      data.items [] (fun it _ p2 hp2 => absurd hp2 (List.not_mem_nil p2)) hids).trans
      (List.nil_append _)
  · intro firstItem hhead hres hbr
    unfold generateCaptions
    rw [if_pos (Or.inr rfl)]
    refine congrArg CaptionsOutput.single ?_
    show applyVars (feedVariables fmtDate "ig_feed" data) (resolveTemplate ag "ig_feed") = _
    rw [hres]
    simp only [feedVariables, hhead, Option.map_some', Option.getD_some]
    rw [if_neg (show ¬ ("ig_feed" : String) = "imvu_feed" from by decide)]
    refine applyVars_resolve
      [("agency_name", _), ("stream_type", _), ("due_date", _),
       ("creator_imvu_avatar", _), ("creator_ig_handle", _), ("creator_shop_id", _),
       ("agency_ig_handle", _), ("agency_hashtag", _), ("model_ig_handle", _)]
      _ "item_name" _ ?_ ?_
    · intro key hkey
      exact (show ∀ k ∈ (["agency_name", "stream_type", "due_date", "creator_imvu_avatar",
          "creator_ig_handle", "creator_shop_id", "agency_ig_handle", "agency_hashtag",
          "model_ig_handle"] : List String),
          occursIn (varPattern k) (placeholder "item_name").toList = false
        from by decide) key hkey
    · exact brace_not_mem_fallback _ _ hbr (by decide)

/-- C2 witness: a two-item record rendered for `request` yields the
per-item mapping with exactly 2 entries, one per item id. -/
theorem c2_witness :
    generateCaptions fmt0 "request" none dataAB =
      CaptionsOutput.perItem (dataAB.items.map fun it =>
        (it.id, generateCaptionForItem fmt0 "request" none dataAB it))
    ∧ (dataAB.items.map fun it =>
        (it.id, generateCaptionForItem fmt0 "request" none dataAB it)).length = 2 :=
  ⟨(c2_amended fmt0 none dataAB (by decide)).2.1 "request" (Or.inl rfl), by decide⟩

/-- C3 counterexample: for `ig_feed`, the aggregate placeholder is not
substituted at all: a two-item record with items named A and B rendered
against a template made of the aggregate placeholder returns the template
text unchanged instead of the comma-join "A, B". -/
theorem c3_counterexample :
    generateSingleCaptionForAllItems fmt0 "ig_feed" (some agItemNames) dataAB =
      "{item_names}" := by decide

/-- C3 amended: only for `imvu_feed` are the aggregate placeholders bound:
`item_names` resolves to the comma-join of all item names and
`product_ids` to the comma-join of all product ids, and an `imvu_feed`
template containing the aggregate placeholder yields a single string
containing "A, B" for items named A and B; for `ig_feed` the aggregate
variables are not substituted (the first item's single-item fields are
used instead). -/
theorem c3_amended (fmtDate : Int → String) (ag : Option Agency) (data : Stream) :
    (resolveTemplate ag "imvu_feed" = placeholder "item_names" →
      lbrace ∉ (String.intercalate ", " (data.items.map StreamItem.item_name)).toList →
      generateSingleCaptionForAllItems fmtDate "imvu_feed" ag data =
        String.intercalate ", " (data.items.map StreamItem.item_name))
    ∧ (resolveTemplate ag "imvu_feed" = placeholder "product_ids" →
      generateSingleCaptionForAllItems fmtDate "imvu_feed" ag data =
        String.intercalate ", " (data.items.map StreamItem.product_id))
    ∧ occursIn "A, B".toList
        (generateSingleCaptionForAllItems fmt0 "imvu_feed" (some agJoinWrap) dataAB).toList
      = true := by
  refine ⟨?_, ?_, by decide⟩
  · intro hres hbr
    show applyVars (feedVariables fmtDate "imvu_feed" data) (resolveTemplate ag "imvu_feed") = _
    rw [hres]
    refine applyVars_resolve
      [("agency_name", _), ("stream_type", _), ("due_date", _),
       ("creator_imvu_avatar", _), ("creator_ig_handle", _), ("creator_shop_id", _),
       ("agency_ig_handle", _), ("agency_hashtag", _), ("model_ig_handle", _)]
      _ "item_names" _ ?_ hbr
    intro key hkey
    exact (show ∀ k ∈ (["agency_name", "stream_type", "due_date", "creator_imvu_avatar",
        "creator_ig_handle", "creator_shop_id", "agency_ig_handle", "agency_hashtag",
        "model_ig_handle"] : List String),
        occursIn (varPattern k) (placeholder "item_names").toList = false
      from by decide) key hkey
  · intro hres
    show applyVars (feedVariables fmtDate "imvu_feed" data) (resolveTemplate ag "imvu_feed") = _
    rw [hres]
    refine applyVars_resolve_last
      [("agency_name", _), ("stream_type", _), ("due_date", _),
       ("creator_imvu_avatar", _), ("creator_ig_handle", _), ("creator_shop_id", _),
       ("agency_ig_handle", _), ("agency_hashtag", _), ("model_ig_handle", _),
       ("item_names", _)]
      "product_ids" _ ?_
    intro key hkey
    exact (show ∀ k ∈ (["agency_name", "stream_type", "due_date", "creator_imvu_avatar",
        "creator_ig_handle", "creator_shop_id", "agency_ig_handle", "agency_hashtag",
        "model_ig_handle", "item_names"] : List String),
        occursIn (varPattern k) (placeholder "product_ids").toList = false
      from by decide) key hkey

/-- C3 witness: the aggregate substitution at a concrete two-item record:
an `imvu_feed` template consisting of the aggregate placeholder renders
to exactly "A, B". -/
theorem c3_witness :
    generateSingleCaptionForAllItems fmt0 "imvu_feed" (some agJoin) dataAB = "A, B" := by
  have h := (c3_amended fmt0 (some agJoin) dataAB).1 (by decide) (by decide)
  exact h.trans (by decide)

/-- C4: for every draft with dueDays in [1, 7], the record returned by
`createStream` has its due date equal to its creation timestamp plus
exactly dueDays days; the store itself performs no narrower check, so any
positive dueDays is accepted the same way. -/
theorem c4_create_due_date (now : Int) (streams : List Stream)
    (draft : StreamDraft) (h1 : 1 ≤ draft.due_days) (h2 : draft.due_days ≤ 7) :
    (createStream now streams draft).2.due_date =
      (createStream now streams draft).2.created_at + draft.due_days * msPerDay := rfl

/-- C4 witness: the invariant at dueDays = 3. -/
theorem c4_witness :
    (createStream 50 [] draft3).2.due_date =
      (createStream 50 [] draft3).2.created_at + 3 * msPerDay :=
  c4_create_due_date 50 [] draft3 (by decide) (by decide)

/-- C5 counterexample: the recognized variable `stream_type`, rendered
with an empty record field, resolves to the literal "showcase" rather
than the empty string predicted by the claim. -/
theorem c5_counterexample :
    generateCaptionForItem fmt0 "request" (some agStreamType) data0 item0 =
      "showcase" := by decide

/-- C5 amended: per-item rendering substitutes each recognized
placeholder by its resolved value, with fallbacks for empty fields:
`item_name` to "Item", `creator_name` and `creator_imvu_avatar` to
"Creator", `agency_name` to "Agency", `stream_type` to "showcase", and
the remaining recognized variables (`creator_ig_handle`,
`creator_ig_shop_handle`, `product_id`, `due_date`) to the empty string;
"\x7bitem_name\x7d by \x7bcreator_name\x7d" renders to "Gown by Lira"
against the Gown/Lira item and to "Item by Creator" against an item with
both fields empty. -/
theorem c5_amended (fmtDate : Int → String) :
    (∀ (ag : Option Agency) (data : Stream) (item : StreamItem),
      resolveTemplate ag "request" = placeholder "item_name" →
      lbrace ∉ item.item_name.toList →
      generateCaptionForItem fmtDate "request" ag data item =
        (if item.item_name = "" then "Item" else item.item_name))
    ∧ (∀ (ag : Option Agency) (data : Stream) (item : StreamItem),
      resolveTemplate ag "request" = placeholder "creator_name" →
      lbrace ∉ item.creator_name.toList →
      generateCaptionForItem fmtDate "request" ag data item =
        (if item.creator_name = "" then "Creator" else item.creator_name))
    ∧ (∀ (ag : Option Agency) (data : Stream) (item : StreamItem),
      resolveTemplate ag "request" = placeholder "creator_imvu_avatar" →
      lbrace ∉ item.creator_imvu_avatar.toList →
      generateCaptionForItem fmtDate "request" ag data item =
        (if item.creator_imvu_avatar = "" then "Creator" else item.creator_imvu_avatar))
    ∧ (∀ (ag : Option Agency) (data : Stream) (item : StreamItem),
      resolveTemplate ag "request" = placeholder "creator_ig_handle" →
      lbrace ∉ item.creator_ig_handle.toList →
      generateCaptionForItem fmtDate "request" ag data item = item.creator_ig_handle)
    ∧ (∀ (ag : Option Agency) (data : Stream) (item : StreamItem),
      resolveTemplate ag "request" = placeholder "creator_ig_shop_handle" →
      lbrace ∉ item.creator_ig_shop_handle.toList →
      generateCaptionForItem fmtDate "request" ag data item = item.creator_ig_shop_handle)
    ∧ (∀ (ag : Option Agency) (data : Stream) (item : StreamItem),
      resolveTemplate ag "request" = placeholder "product_id" →
      lbrace ∉ item.product_id.toList →
      generateCaptionForItem fmtDate "request" ag data item = item.product_id)
    ∧ (∀ (ag : Option Agency) (data : Stream) (item : StreamItem),
      resolveTemplate ag "request" = placeholder "agency_name" →
      lbrace ∉ data.agency_name.toList →
      generateCaptionForItem fmtDate "request" ag data item =
        (if data.agency_name = "" then "Agency" else data.agency_name))
    ∧ (∀ (ag : Option Agency) (data : Stream) (item : StreamItem),
      resolveTemplate ag "request" = placeholder "stream_type" →
      lbrace ∉ data.stream_type.toList →
      generateCaptionForItem fmtDate "request" ag data item =
        (if data.stream_type = "" then "showcase" else data.stream_type))
    ∧ (∀ (ag : Option Agency) (data : Stream) (item : StreamItem),
      resolveTemplate ag "request" = placeholder "due_date" →
      generateCaptionForItem fmtDate "request" ag data item =
        (if data.due_date = 0 then "" else fmtDate data.due_date))
    ∧ generateCaptionForItem fmt0 "request" (some agRequest) data0 item0 = "Gown by Lira"
    ∧ generateCaptionForItem fmt0 "request" (some agRequest) data0 itemBlank =
        "Item by Creator" := by
  refine ⟨?_, ?_, ?_, ?_, ?_, ?_, ?_, ?_, ?_, by decide, by decide⟩
  · intro ag data item hres hbr
    show applyVars (itemVars fmtDate data item) (resolveTemplate ag "request") = _
    rw [hres]
    refine applyVars_resolve [] _ "item_name" _ ?_ ?_
    · intro key hkey
      exact absurd hkey (List.not_mem_nil key)
    · exact brace_not_mem_fallback _ _ hbr (by decide)
  · intro ag data item hres hbr
    show applyVars (itemVars fmtDate data item) (resolveTemplate ag "request") = _
    rw [hres]
    refine applyVars_resolve [("item_name", _)] _ "creator_name" _ ?_ ?_
    · intro key hkey
      exact (show ∀ k ∈ (["item_name"] : List String),
          occursIn (varPattern k) (placeholder "creator_name").toList = false
        from by decide) key hkey
    · exact brace_not_mem_fallback _ _ hbr (by decide)
  · intro ag data item hres hbr
    show applyVars (itemVars fmtDate data item) (resolveTemplate ag "request") = _
    rw [hres]
    refine applyVars_resolve [("item_name", _), ("creator_name", _)] _
      "creator_imvu_avatar" _ ?_ ?_
    · intro key hkey
      exact (show ∀ k ∈ (["item_name", "creator_name"] : List String),
          occursIn (varPattern k) (placeholder "creator_imvu_avatar").toList = false
        from by decide) key hkey
    · exact brace_not_mem_fallback _ _ hbr (by decide)
  · intro ag data item hres hbr
    show applyVars (itemVars fmtDate data item) (resolveTemplate ag "request") = _
    rw [hres]
    refine applyVars_resolve
      [("item_name", _), ("creator_name", _), ("creator_imvu_avatar", _)] _
      "creator_ig_handle" _ ?_ hbr
    intro key hkey
    exact (show ∀ k ∈ (["item_name", "creator_name", "creator_imvu_avatar"] : List String),
        occursIn (varPattern k) (placeholder "creator_ig_handle").toList = false
      from by decide) key hkey
  · intro ag data item hres hbr
    show applyVars (itemVars fmtDate data item) (resolveTemplate ag "request") = _
    rw [hres]
    refine applyVars_resolve
      [("item_name", _), ("creator_name", _), ("creator_imvu_avatar", _),
       ("creator_ig_handle", _)] _
      "creator_ig_shop_handle" _ ?_ hbr
    intro key hkey
    exact (show ∀ k ∈ (["item_name", "creator_name", "creator_imvu_avatar",
        "creator_ig_handle"] : List String),
        occursIn (varPattern k) (placeholder "creator_ig_shop_handle").toList = false
      from by decide) key hkey
  · intro ag data item hres hbr
    show applyVars (itemVars fmtDate data item) (resolveTemplate ag "request") = _
    rw [hres]
    refine applyVars_resolve
      [("item_name", _), ("creator_name", _), ("creator_imvu_avatar", _),
       ("creator_ig_handle", _), ("creator_ig_shop_handle", _)] _
      "product_id" _ ?_ hbr
    intro key hkey
    exact (show ∀ k ∈ (["item_name", "creator_name", "creator_imvu_avatar",
        "creator_ig_handle", "creator_ig_shop_handle"] : List String),
        occursIn (varPattern k) (placeholder "product_id").toList = false
      from by decide) key hkey
  · intro ag data item hres hbr
    show applyVars (itemVars fmtDate data item) (resolveTemplate ag "request") = _
    rw [hres]
    refine applyVars_resolve
      [("item_name", _), ("creator_name", _), ("creator_imvu_avatar", _),
       ("creator_ig_handle", _), ("creator_ig_shop_handle", _), ("product_id", _)] _
      "agency_name" _ ?_ ?_
    · intro key hkey
      exact (show ∀ k ∈ (["item_name", "creator_name", "creator_imvu_avatar",
          "creator_ig_handle", "creator_ig_shop_handle", "product_id"] : List String),
          occursIn (varPattern k) (placeholder "agency_name").toList = false
        from by decide) key hkey
    · exact brace_not_mem_fallback _ _ hbr (by decide)
  · intro ag data item hres hbr
    show applyVars (itemVars fmtDate data item) (resolveTemplate ag "request") = _
    rw [hres]
    refine applyVars_resolve
      [("item_name", _), ("creator_name", _), ("creator_imvu_avatar", _),
       ("creator_ig_handle", _), ("creator_ig_shop_handle", _), ("product_id", _),
       ("agency_name", _)] _
      "stream_type" _ ?_ ?_
    · intro key hkey
      exact (show ∀ k ∈ (["item_name", "creator_name", "creator_imvu_avatar",
          "creator_ig_handle", "creator_ig_shop_handle", "product_id",
          "agency_name"] : List String),
          occursIn (varPattern k) (placeholder "stream_type").toList = false
        from by decide) key hkey
    · exact brace_not_mem_fallback _ _ hbr (by decide)
  · intro ag data item hres
    show applyVars (itemVars fmtDate data item) (resolveTemplate ag "request") = _
    rw [hres]
    refine applyVars_resolve_last
      [("item_name", _), ("creator_name", _), ("creator_imvu_avatar", _),
       ("creator_ig_handle", _), ("creator_ig_shop_handle", _), ("product_id", _),
       ("agency_name", _), ("stream_type", _)]
      "due_date" _ ?_
    intro key hkey
    exact (show ∀ k ∈ (["item_name", "creator_name", "creator_imvu_avatar",
        "creator_ig_handle", "creator_ig_shop_handle", "product_id",
        "agency_name", "stream_type"] : List String),
        occursIn (varPattern k) (placeholder "due_date").toList = false
      from by decide) key hkey

/-- C5 witness: the per-variable resolution applied to a template made of
the item-name placeholder and the Gown item. -/
theorem c5_witness :
    generateCaptionForItem fmt0 "request" (some agItemOnly) data0 item0 = "Gown" := by
  have h := (c5_amended fmt0).1 (some agItemOnly) data0 item0 (by decide) (by decide)
  exact h.trans (by decide)

/-- C6 counterexample: an unrecognized platform key does not fail with an
UnknownPlatform error: the default-template lookup returns the empty
string and the render call proceeds, producing a per-item mapping. -/
theorem c6_counterexample :
    getDefaultTemplate "tiktok" = ""
    ∧ generateCaptions fmt0 "tiktok" none data0 =
      CaptionsOutput.perItem [(1, "")] := by decide

/-- C6 amended: for every platform key outside the four recognized ones,
the default-template lookup returns the empty string (there is no
UnknownPlatform failure), and rendering with no organization template
proceeds down the per-item path, producing one empty caption per item. -/
theorem c6_amended (fmtDate : Int → String) (p : String) (data : Stream)
    (h1 : p ≠ "imvu_feed") (h2 : p ≠ "ig_feed") (h3 : p ≠ "request")
    (h4 : p ≠ "end_stream") (hids : (data.items.map StreamItem.id).Nodup) :
    getDefaultTemplate p = ""
    ∧ generateCaptions fmtDate p none data =
      CaptionsOutput.perItem (data.items.map fun it => (it.id, "")) := by
  have hdef : getDefaultTemplate p = "" := by
    unfold getDefaultTemplate
    rw [if_neg h1, if_neg h2, if_neg h3, if_neg h4]
  refine ⟨hdef, ?_⟩
  have hres : resolveTemplate none p = "" := hdef
  have hcap : ∀ it, generateCaptionForItem fmtDate p none data it = "" := by
    intro it
    show applyVars (itemVars fmtDate data it) (resolveTemplate none p) = ""
    rw [hres]
    exact applyVars_braceFree _ (by decide)
  have hnot : ¬ (p = "imvu_feed" ∨ p = "ig_feed") := by
    intro h
    rcases h with h | h
    · exact h1 h
    · exact h2 h
  unfold generateCaptions
  rw [if_neg hnot]
  refine congrArg CaptionsOutput.perItem ?_
  refine ((foldl_objInsert_eq_map (fun it => generateCaptionForItem fmtDate p none data it)
    data.items [] (fun it _ p2 hp2 => absurd hp2 (List.not_mem_nil p2)) hids).trans
    (List.nil_append _)).trans ?_
  exact map_congr_fn _ _ data.items (fun it _ => by rw [hcap it])

/-- C6 witness: the amended behaviour at the concrete unknown key
"stories" and a two-item record. -/
theorem c6_witness :
    getDefaultTemplate "stories" = ""
    ∧ generateCaptions fmt0 "stories" none dataAB =
      CaptionsOutput.perItem [(1, ""), (2, "")] := by
  have h := c6_amended fmt0 "stories" dataAB (by decide) (by decide) (by decide)
    (by decide) (by decide)
  exact ⟨h.1, h.2.trans (by decide)⟩

/-- C7 counterexample: with no remote endpoint configured, the fetch-all
operation does not fail with a NotConfigured error; it succeeds with the
empty list. -/
theorem c7_counterexample : dbGetStreams false [bRem] "u1" = Except.ok [] := rfl

/-- C7 amended: with no remote endpoint configured, create, update and
delete fail fast with the configuration error and touch no remote state,
while fetch-all instead returns the empty list successfully; none of the
operations inspects the owner id. -/
theorem c7_amended (remote : List Stream) (s : Stream) (id : Int)
    (patch : StreamPatch) (uid : String) :
    dbCreateStream false remote s = Except.error "Supabase not configured"
    ∧ dbUpdateStream false remote id patch = Except.error "Supabase not configured"
    ∧ dbDeleteStream false remote id = Except.error "Supabase not configured"
    ∧ dbGetStreams false remote uid = Except.ok [] :=
  ⟨rfl, rfl, rfl, rfl⟩

/-- C8 counterexample: completing or updating an absent id does not fail
with NotFound; both return the record set unchanged (silent no-op, with
the source reporting success). -/
theorem c8_counterexample :
    completeStream 100 [aRec] 999 = [aRec]
    ∧ updateStream [aRec] (some 999) {} = [aRec] := by decide

/-- C8 amended: when the target id is absent from the record set, update
and complete are silent no-ops: the record set is returned unchanged and
no failure is raised. -/
theorem c8_amended (now : Int) (streams : List Stream) (tid : Int)
    (eid : Option Int) (patch : StreamPatch)
    (hc : ∀ s ∈ streams, s.id ≠ tid) (hu : ∀ s ∈ streams, some s.id ≠ eid) :
    completeStream now streams tid = streams
    ∧ updateStream streams eid patch = streams := by
  constructor
  · exact map_eq_self_of _ streams (fun s hs => if_neg (hc s hs))
  · exact map_eq_self_of _ streams (fun s hs => if_neg (hu s hs))

/-- C8 witness: the amended no-op behaviour at a concrete absent id. -/
theorem c8_witness :
    completeStream 100 [bRec] 7 = [bRec]
    ∧ updateStream [bRec] (some 7) {} = [bRec] :=
  c8_amended 100 [bRec] 7 (some 7) {} (by decide) (by decide)

/-- C9 counterexample: with two local-only records and the first upload
rejected, the push issues only the one failing create call; the second
local-only record is never attempted, contradicting the claim that the
coordinator still attempts each remaining record. -/
theorem c9_counterexample :
    (syncLocalData failOn1 true "u" [aRec, bRec] []).createCalls =
      [tagOwner "u" aRec]
    ∧ (syncLocalData failOn1 true "u" [aRec, bRec] []).pushOk = false := by decide

/-- C9 amended: a rejected upload is swallowed, but it aborts the push
loop: the records before the failing one are uploaded, the failing one is
attempted, and the records after it are not attempted at all; the
coordinator nevertheless still proceeds to the replace phase with
whatever remote data exists. -/
theorem c9_amended :
    (∀ (createOk : Stream → Bool) (uid : String) (dbIds : List Int) (f : Stream)
       (pre post remote calls : List Stream),
       dbIds.contains f.id = false → createOk (tagOwner uid f) = false →
       (∀ r ∈ pre, dbIds.contains r.id = false ∧ createOk (tagOwner uid r) = true) →
       pushLoop createOk uid dbIds (pre ++ f :: post) remote calls =
         ⟨remote ++ pre.map (tagOwner uid),
          calls ++ (pre.map (tagOwner uid) ++ [tagOwner uid f]), false⟩)
    ∧ (∀ (createOk : Stream → Bool) (uid : String) (L R : List Stream),
       getStreamsList true (syncData createOk true (some uid) L R).remote uid ≠ [] →
       (syncData createOk true (some uid) L R).localStreams =
         getStreamsList true (syncData createOk true (some uid) L R).remote uid) := by
  constructor
  · intro createOk uid dbIds f pre post remote calls hf1 hf2 hpre
    exact pushLoop_abort createOk uid dbIds f hf1 hf2 pre post remote calls hpre
  · intro createOk uid L R hne
    have hu := syncData_unfold createOk uid L R
    rw [hu] at hne ⊢
    show (if (getStreamsList true (syncLocalData createOk true uid L R).remote uid).length > 0
        then getStreamsList true (syncLocalData createOk true uid L R).remote uid else L) =
      getStreamsList true (syncLocalData createOk true uid L R).remote uid
    rw [if_pos (List.length_pos.mpr hne)]

/-- C9 witness: the abort shape at a concrete failing record, and the
replace phase still running after a failed push. -/
theorem c9_witness :
    pushLoop failOn1 "u" [] [aRec, bRec] [] [] =
      ⟨[], [tagOwner "u" aRec], false⟩
    ∧ (syncData failOn1 true (some "u") [aRec, bRec] [bRem, cRem]).localStreams =
      getStreamsList true
        (syncData failOn1 true (some "u") [aRec, bRec] [bRem, cRem]).remote "u" := by
  refine ⟨?_, c9_amended.2 failOn1 "u" [aRec, bRec] [bRem, cRem] (by decide)⟩
  exact (c9_amended.1 failOn1 "u" [] aRec [] [bRec] [] []
    (by decide) (by decide) (by decide)).trans (by decide)

/-- C10: every record-store mutation preserves the relative order of the
records it does not target: create appends at the end; complete and
update leave every other record at its previous position; delete keeps
the surviving records as an in-order sublist containing exactly the
non-target records. -/
theorem c10_mutation_order (now : Int) (streams : List Stream)
    (draft : StreamDraft) (tid : Int) (eid : Option Int) (patch : StreamPatch) :
    (createStream now streams draft).1 = streams ++ [(createStream now streams draft).2]
    ∧ (completeStream now streams tid).length = streams.length
    ∧ (∀ (i : Nat) (s : Stream), streams[i]? = some s → s.id ≠ tid →
        (completeStream now streams tid)[i]? = some s)
    ∧ (updateStream streams eid patch).length = streams.length
    ∧ (∀ (i : Nat) (s : Stream), streams[i]? = some s → some s.id ≠ eid →
        (updateStream streams eid patch)[i]? = some s)
    ∧ List.Sublist (deleteStream streams tid) streams
    ∧ (∀ s : Stream, s ∈ deleteStream streams tid ↔ (s ∈ streams ∧ s.id ≠ tid)) := by
  refine ⟨rfl, List.length_map _ _, ?_, List.length_map _ _, ?_,
    List.filter_sublist _, ?_⟩
  · intro i s hi hne
    unfold completeStream
    rw [List.getElem?_map, hi]
    simp [hne]
  · intro i s hi hne
    unfold updateStream
    rw [List.getElem?_map, hi]
    simp [hne]
  · intro s
    unfold deleteStream
    rw [List.mem_filter]
    simp [bne_iff_ne]

/-- C10 witness: the order-preservation facts at concrete inputs. -/
theorem c10_witness :
    (createStream 50 [bRec] draft3).1 = [bRec] ++ [(createStream 50 [bRec] draft3).2]
    ∧ (completeStream 100 [aRec, bRec] 2)[0]? = some aRec
    ∧ (updateStream [aRec] (some 5) {})[0]? = some aRec
    ∧ (aRec ∈ deleteStream [aRec, bRec] 2 ↔ (aRec ∈ [aRec, bRec] ∧ aRec.id ≠ 2)) := by
  refine ⟨(c10_mutation_order 50 [bRec] draft3 0 none {}).1, ?_, ?_, ?_⟩
  · exact (c10_mutation_order 100 [aRec, bRec] draft3 2 none {}).2.2.1 0 aRec
      (by decide) (by decide)
  · exact (c10_mutation_order 100 [aRec] draft3 0 (some 5) {}).2.2.2.2.1 0 aRec
      (by decide) (by decide)
  · exact (c10_mutation_order 100 [aRec, bRec] draft3 2 none {}).2.2.2.2.2.2 aRec

end Aurelius
